import Mathlib

/-!
Verification of the voxel grid engine (sparse voxel store, partitioner,
surface extractor, grid coordinate conversion, undo/redo history manager)
against its specification.  The Python sources are shallowly embedded:
SQLite tables become lists of rows, floats become rationals, exceptions
become `Except` values, and the module-level history stacks become an
explicit state record threaded through the operations.
-/

set_option autoImplicit false

namespace VoxelEngine

/-- A row of the `voxels` table as created by
`model_structure_service.VoxelDB._init_schema`: integer key `(ix,iy,iz)`,
continuous center `(x,y,z)` (SQL `REAL`, modelled as `ℚ`), `material`
(`INTEGER NOT NULL DEFAULT 1`) and the magnetization components
(`REAL NOT NULL DEFAULT 0.0`). -/
structure VoxelRow where
  ix : Int
  iy : Int
  iz : Int
  x : ℚ
  y : ℚ
  z : ℚ
  material : Int
  magnet_magnitude : ℚ
  magnet_polar : ℚ
  magnet_azimuth : ℚ
deriving DecidableEq

/-- `ModelDelta` (app/models/models.py): the before/after voxel lists of one
recorded change. -/
structure ModelDelta where
  old_voxels : List VoxelRow
  new_voxels : List VoxelRow
deriving DecidableEq

/-- `EmptyHistoryException` (history_management_service.py line 10), the
distinct error class raised by `undo_request`/`redo_request` on an empty
stack, carrying the message string passed to the constructor. -/
inductive HistoryError where
  | emptyHistory (msg : String)
deriving DecidableEq

/-- `MAX_HISTORY_SIZE` (history_management_service.py line 15). -/
def MAX_HISTORY_SIZE : Nat := 100

/-- The module-level state of history_management_service.py: the two global
lists `history_stack` and `redo_stack`.  A Lean list's head is the Python
list's *end*, i.e. the top of the stack; the Python `pop(0)` of the oldest
entry is `dropLast` here. -/
structure HistoryState where
  history_stack : List ModelDelta
  redo_stack : List ModelDelta
deriving DecidableEq

/-- `record_change` (history_management_service.py lines 21-26):
append the delta, pop the oldest entry once if the depth now exceeds
`MAX_HISTORY_SIZE`, and clear the redo stack. -/
def record_change (delta : ModelDelta) (s : HistoryState) : HistoryState :=
  let h := delta :: s.history_stack
  { history_stack := if h.length > MAX_HISTORY_SIZE then h.dropLast else h,
    redo_stack := [] }

/-- `undo_request` (lines 28-34): raise `EmptyHistoryException` if the
history stack is empty (the Python state is untouched in that case), else
pop the top delta, push it on the redo stack and return it. -/
def undo_request (s : HistoryState) :
    Except HistoryError ModelDelta × HistoryState :=
  match s.history_stack with
  | [] => (Except.error (HistoryError.emptyHistory "No history to undo."), s)
  | d :: rest =>
      (Except.ok d, { history_stack := rest, redo_stack := d :: s.redo_stack })

/-- `redo_request` (lines 36-42): symmetric to `undo_request`. -/
def redo_request (s : HistoryState) :
    Except HistoryError ModelDelta × HistoryState :=
  match s.redo_stack with
  | [] => (Except.error (HistoryError.emptyHistory "No history to redo."), s)
  | d :: rest =>
      (Except.ok d, { history_stack := d :: s.history_stack, redo_stack := rest })

/-- A sequence of `record_change` calls, oldest first. -/
def apply_changes (ds : List ModelDelta) (s : HistoryState) : HistoryState :=
  ds.foldl (fun t d => record_change d t) s

/-- The empty delta, used as a concrete input in witnesses. -/
def delta0 : ModelDelta := ⟨[], []⟩

/-- The primary key `(ix,iy,iz)` of a row. -/
def voxelKey (v : VoxelRow) : Int × Int × Int := (v.ix, v.iy, v.iz)

/-- Whether some row with key `k` exists in the table (the indexed
`SELECT ... WHERE ix = ? AND iy = ? AND iz = ?` existence test). -/
def occupied (s : List VoxelRow) (k : Int × Int × Int) : Bool :=
  s.any fun v => decide (voxelKey v = k)

/-- A 6-column parameter tuple `(ix, iy, iz, x, y, z)` as passed to
`upsert_many` / the voxel INSERT statements. -/
structure CoordRow where
  ix : Int
  iy : Int
  iz : Int
  x : ℚ
  y : ℚ
  z : ℚ
deriving DecidableEq

/-- The key part of a parameter tuple. -/
def coordKey (c : CoordRow) : Int × Int × Int := (c.ix, c.iy, c.iz)

/-- The stored row produced by inserting only the six columns
`(ix, iy, iz, x, y, z)`: the remaining columns take the schema defaults
`material = 1`, `magnet_magnitude = magnet_polar = magnet_azimuth = 0.0`. -/
def defaultRow (c : CoordRow) : VoxelRow :=
  ⟨c.ix, c.iy, c.iz, c.x, c.y, c.z, 1, 0, 0, 0⟩

/-- SQLite `INSERT OR REPLACE` keyed on the primary key `(ix,iy,iz)`: an
existing row with the same key is deleted and the new row inserted with a
fresh rowid, i.e. appended at the end of the table. -/
def insert_or_replace (s : List VoxelRow) (v : VoxelRow) : List VoxelRow :=
  (s.filter fun w => decide (voxelKey w ≠ voxelKey v)) ++ [v]

/-- `upsert_many` (model_structure_service.py lines 77-83): `executemany` of
the six-column `INSERT OR REPLACE`, one row at a time in batch order. -/
def upsert_many (s : List VoxelRow) (rows : List CoordRow) : List VoxelRow :=
  rows.foldl (fun acc c => insert_or_replace acc (defaultRow c)) s

/-- Python runtime errors raised by the embedded functions. -/
inductive PyError where
  | zeroDivision
  | nameError
deriving DecidableEq

/-- `add_voxel` (model_structure_service.py lines 86-94): the parameter
tuple `(ix, iy, iz, x, y, z)` of its INSERT references names `x`, `y`, `z`
that are bound nowhere in the module (the `TODO` comment in the source
acknowledges this), so every call raises `NameError` before the statement
executes and the table is never written. -/
def add_voxel (_s : List VoxelRow) (_ix _iy _iz : Int) :
    Except PyError (List VoxelRow) :=
  Except.error PyError.nameError

/-- First row with key `k`, the result of a keyed `SELECT` (the table never
holds two rows with one key, so "first" is "the" row). -/
def lookupKey (s : List VoxelRow) (k : Int × Int × Int) : Option VoxelRow :=
  s.find? fun v => decide (voxelKey v = k)

/-- The batch entry that wins for key `k` under `INSERT OR REPLACE`
semantics: the *last* row of the batch carrying that key. -/
def batchLast (batch : List CoordRow) (k : Int × Int × Int) : Option CoordRow :=
  match batch with
  | [] => none
  | c :: rest =>
      match batchLast rest k with
      | some cw => some cw
      | none => if coordKey c = k then some c else none

/-- A `(material, magnet_magnitude, magnet_polar, magnet_azimuth)` result
tuple of the property SELECT. -/
abbrev PropTuple := Int × ℚ × ℚ × ℚ

/-- `get_properties` (model_structure_service.py lines 121-128): executes
the keyed property SELECT and returns `fetchall()`, i.e. the **list** of
matching result tuples — a one-element list for a present key, the empty
list for an absent key — despite the declared return type
`Tuple[int, float, float, float]`. -/
def get_properties (s : List VoxelRow) (ix iy iz : Int) : List PropTuple :=
  (s.filter fun v => decide (voxelKey v = (ix, iy, iz))).map fun v =>
    (v.material, v.magnet_magnitude, v.magnet_polar, v.magnet_azimuth)

/-- `get_full_voxels` (model_tracking_service.py lines 109-115): for each
requested key it calls `get_properties` and builds
`(ix, iy, iz, rows[0], rows[1], rows[2], rows[3])`; each Python indexing
`rows[i]` raises `IndexError` when out of range, modelled by `Option`. -/
def get_full_voxel_one (s : List VoxelRow) (k : Int × Int × Int) :
    Option (Int × Int × Int × PropTuple × PropTuple × PropTuple × PropTuple) := do
  let rows := get_properties s k.1 k.2.1 k.2.2
  let r0 ← rows.get? 0
  let r1 ← rows.get? 1
  let r2 ← rows.get? 2
  let r3 ← rows.get? 3
  pure (k.1, k.2.1, k.2.2, r0, r1, r2, r3)

/-- The loop of `get_full_voxels`; the first raised `IndexError` aborts the
whole call. -/
def get_full_voxels (s : List VoxelRow) (ks : List (Int × Int × Int)) :
    Option (List (Int × Int × Int × PropTuple × PropTuple × PropTuple × PropTuple)) :=
  ks.mapM (get_full_voxel_one s)

/-- The six face-adjacent offsets (`±1` on exactly one axis). -/
def neighbor_offsets : List (Int × Int × Int) :=
  [(1, 0, 0), (-1, 0, 0), (0, 1, 0), (0, -1, 0), (0, 0, 1), (0, 0, -1)]

/-- The `WHERE` clause of the `FIND_SURFACE` query
(model_tracking_service.py lines 6-24): one of the six LEFT-JOINed
face-neighbor rows is NULL, i.e. at least one face neighbor key is absent
from the table. -/
def on_surface (s : List VoxelRow) (v : VoxelRow) : Bool :=
  !occupied s (v.ix + 1, v.iy, v.iz) || !occupied s (v.ix - 1, v.iy, v.iz) ||
  !occupied s (v.ix, v.iy + 1, v.iz) || !occupied s (v.ix, v.iy - 1, v.iz) ||
  !occupied s (v.ix, v.iy, v.iz + 1) || !occupied s (v.ix, v.iy, v.iz - 1)

/-- The rows selected by the `FIND_SURFACE` query.  Under the primary-key
invariant each LEFT JOIN matches at most one row, so each stored voxel is
emitted at most once, exactly when `on_surface`. -/
def surface_rows (s : List VoxelRow) : List VoxelRow :=
  s.filter (on_surface s)

/-- `find_surface` (model_tracking_service.py lines 48-52): runs the
read-only `FIND_SURFACE` query, projecting `(v.x, v.y, v.z)` per selected
voxel; the table itself is returned unchanged (the function only SELECTs). -/
def find_surface (s : List VoxelRow) : List (ℚ × ℚ × ℚ) × List VoxelRow :=
  ((surface_rows s).map fun v => (v.x, v.y, v.z), s)

/-- The grid metadata rows `origin_x/y/z`, `voxel_size` of the `meta`
table, as read back by `get_grid_conversion`. -/
structure GridMeta where
  origin_x : ℚ
  origin_y : ℚ
  origin_z : ℚ
  voxel_size : ℚ
deriving DecidableEq

/-- Python's built-in `round`: round half to even (banker's rounding). -/
def pyRound (q : ℚ) : Int :=
  if q - ⌊q⌋ < 1 / 2 then ⌊q⌋
  else if 1 / 2 < q - ⌊q⌋ then ⌊q⌋ + 1
  else if ⌊q⌋ % 2 = 0 then ⌊q⌋ else ⌊q⌋ + 1

/-- `get_grid_conversion` (model_structure_service.py lines 64-74): reads
the grid metadata and computes `round((p - o) / s)` per component, with no
validation of `voxel_size`; a zero pitch raises `ZeroDivisionError` at the
first division, any other pitch (including negative ones) is used as-is. -/
def get_grid_conversion (m : GridMeta) (p : ℚ × ℚ × ℚ) :
    Except PyError (Int × Int × Int) :=
  if m.voxel_size = 0 then Except.error PyError.zeroDivision
  else Except.ok
    (pyRound ((p.1 - m.origin_x) / m.voxel_size),
     pyRound ((p.2.1 - m.origin_y) / m.voxel_size),
     pyRound ((p.2.2 - m.origin_z) / m.voxel_size))

/-- The pitch validation of `voxelize` (voxel_service.py lines 15-16), the
only place in the code base that rejects a non-positive voxel size. -/
def voxelize_size_check (voxel_size : ℚ) : Except String Unit :=
  if voxel_size ≤ 0 then Except.error "voxel_size_mm must be > 0"
  else Except.ok ()

/-- One half-open partition cube `[xmin,xmax) × [ymin,ymax) × [zmin,zmax)`. -/
structure CubeRange where
  xmin : Int
  xmax : Int
  ymin : Int
  ymax : Int
  zmin : Int
  zmax : Int
deriving DecidableEq

/-- Membership of a voxel in a cube: the half-open range test of
`remove_outside_range` (partition_manager.py lines 74-89). -/
def inCube (c : CubeRange) (v : VoxelRow) : Bool :=
  decide (c.xmin ≤ v.ix ∧ v.ix < c.xmax ∧ c.ymin ≤ v.iy ∧ v.iy < c.ymax ∧
    c.zmin ≤ v.iz ∧ v.iz < c.zmax)

/-- `remove_outside_range`: `DELETE ... WHERE NOT (inside)` keeps exactly
the rows inside the half-open cube. -/
def remove_outside_range (s : List VoxelRow) (c : CubeRange) : List VoxelRow :=
  s.filter (inCube c)

/-- Python `range(lo, hi, step)` over integers, for `step > 0` (the only
way the partitioner calls it). -/
def rangeInt (lo hi step : Int) : List Int :=
  (List.range ((hi - lo + step - 1).fdiv step).toNat).map fun i => lo + step * i

/-- The per-axis bounds of `get_partitions` (partition_manager.py lines
42-47): `lo = (mn // half) * half` and `hi = ((mx // half) + 1) * half`,
with Python's floor division `//` embedded as `Int.fdiv`.  (For `half = 0`
Python would raise `ZeroDivisionError`; all uses have `half > 0`.) -/
def partition_bounds (mn mx half : Int) : Int × Int :=
  ((mn.fdiv half) * half, ((mx.fdiv half) + 1) * half)

/-- `get_partitions` (partition_manager.py lines 13-71): computes the
occupied span per axis, expands it via `partition_bounds` with
`half = partition_size // 2`, enumerates cubes of side `partition_size`
starting at the low bounds (x outer, then y, then z), copies the store and
removes rows outside each cube, and keeps only the non-empty results in
enumeration order.  On an empty store SQL `MIN`/`MAX` return NULL and the
unpacking arithmetic raises `TypeError`, modelled as `none`. -/
def get_partitions (s : List VoxelRow) (partition_size : Int) :
    Option (List (CubeRange × List VoxelRow)) :=
  match (s.map VoxelRow.ix).min?, (s.map VoxelRow.ix).max?,
    (s.map VoxelRow.iy).min?, (s.map VoxelRow.iy).max?,
    (s.map VoxelRow.iz).min?, (s.map VoxelRow.iz).max? with
  | some min_ix, some max_ix, some min_iy, some max_iy,
      some min_iz, some max_iz =>
    let half := partition_size.fdiv 2
    let xb := partition_bounds min_ix max_ix half
    let yb := partition_bounds min_iy max_iy half
    let zb := partition_bounds min_iz max_iz half
    let cubes := (rangeInt xb.1 xb.2 partition_size).flatMap fun i =>
      (rangeInt yb.1 yb.2 partition_size).flatMap fun j =>
        (rangeInt zb.1 zb.2 partition_size).map fun k =>
          (⟨i, i + partition_size, j, j + partition_size,
            k, k + partition_size⟩ : CubeRange)
    some ((cubes.map fun c => (c, remove_outside_range s c)).filter
      fun p => !p.2.isEmpty)
  | _, _, _, _, _, _ => none

/-- Modelled from the spec: `VoxelDB.centre_structure` is invoked by
`create_voxel_db` (project_management_service.py line 29) but is defined
nowhere under src/.  Spec §4.2: it "recomputes the midpoint of the occupied
coordinate span per axis (`(min+max)/2`, integer-rounded) and shifts every
voxel's integer coordinates by that offset so the structure is centered at
the origin"; the integer rounding is taken as floor.  On an empty store
there is no occupied span and nothing to shift. -/
def centre_structure (s : List VoxelRow) : List VoxelRow :=
  match (s.map VoxelRow.ix).min?, (s.map VoxelRow.ix).max?,
    (s.map VoxelRow.iy).min?, (s.map VoxelRow.iy).max?,
    (s.map VoxelRow.iz).min?, (s.map VoxelRow.iz).max? with
  | some mnx, some mxx, some mny, some mxy, some mnz, some mxz =>
      s.map fun v =>
        { v with
          ix := v.ix - (mnx + mxx).fdiv 2,
          iy := v.iy - (mny + mxy).fdiv 2,
          iz := v.iz - (mnz + mxz).fdiv 2 }
  | _, _, _, _, _, _ => s

/-- The row built by `create_voxel_db` for one input point: converted
integer indices plus the point's own continuous coordinates. -/
def toCoordRow (p : ℚ × ℚ × ℚ) (idx : Int × Int × Int) : CoordRow :=
  ⟨idx.1, idx.2.1, idx.2.2, p.1, p.2.1, p.2.2⟩

/-- `create_voxel_db` (project_management_service.py lines 17-38): converts
every input point to grid indices, bulk-populates the store with
`upsert_many`, calls `centre_structure` exactly once, then partitions the
centred store with the hard-coded `partition_size = 11`.  Returns the
partition list together with the centred store. -/
def create_voxel_db (m : GridMeta) (coords : List (ℚ × ℚ × ℚ))
    (s : List VoxelRow) :
    Except PyError (Option (List (CubeRange × List VoxelRow)) × List VoxelRow) := do
  let rows ← coords.mapM fun p => (get_grid_conversion m p).map (toCoordRow p)
  let s2 := centre_structure (upsert_many s rows)
  pure (get_partitions s2 11, s2)

/-- Concrete rows and stores used in counterexamples and witnesses. -/
def v000 : VoxelRow := ⟨0, 0, 0, 0, 0, 0, 1, 0, 0, 0⟩

def v200 : VoxelRow := ⟨2, 0, 0, 2, 0, 0, 1, 0, 0, 0⟩

def v500 : VoxelRow := ⟨5, 0, 0, 5, 0, 0, 1, 0, 0, 0⟩

def v999 : VoxelRow := ⟨9, 9, 9, 9, 9, 9, 1, 0, 0, 0⟩

/-- A voxel at the origin whose material and magnetization were edited. -/
def edited000 : VoxelRow := ⟨0, 0, 0, 0, 0, 0, 5, 2, 3, 4⟩

/-- The coordinate batch row for the origin voxel. -/
def c000 : CoordRow := ⟨0, 0, 0, 0, 0, 0⟩

/-- A store whose occupied x-span is `[0, 5]` (the spec's partitioning
example), flat in y and z. -/
def store_span05 : List VoxelRow := [v000, v200, v500]

end VoxelEngine

namespace VoxelEngine

lemma record_change_length_le (d : ModelDelta) (s : HistoryState)
    (h : s.history_stack.length ≤ MAX_HISTORY_SIZE) :
    (record_change d s).history_stack.length ≤ MAX_HISTORY_SIZE := by
  have hrw : (record_change d s).history_stack =
      if (d :: s.history_stack).length > MAX_HISTORY_SIZE
      then (d :: s.history_stack).dropLast else d :: s.history_stack := rfl
  rw [hrw]
  by_cases hgt : (d :: s.history_stack).length > MAX_HISTORY_SIZE
  · rw [if_pos hgt, List.length_dropLast]
    simp only [List.length_cons]
    omega
  · rw [if_neg hgt]
    simp only [List.length_cons, gt_iff_lt, not_lt] at hgt ⊢
    omega

/-- C4: for every sequence of `record_change` calls the history depth stays
at most `MAX_HISTORY_SIZE = 100`; a `record_change` arriving at capacity
evicts exactly the oldest (bottom) entry, keeps every newer entry in order
(the new stack is the new delta on top of `dropLast` of the old one), and
the redo stack is unconditionally cleared. -/
theorem history_capacity_spec (s : HistoryState)
    (hlen : s.history_stack.length ≤ MAX_HISTORY_SIZE)
    (ds : List ModelDelta) (d : ModelDelta) :
    MAX_HISTORY_SIZE = 100 ∧
    (apply_changes ds s).history_stack.length ≤ MAX_HISTORY_SIZE ∧
    (s.history_stack.length = MAX_HISTORY_SIZE →
      record_change d s =
        ⟨d :: s.history_stack.dropLast, []⟩) ∧
    (record_change d s).redo_stack = [] := by
  refine ⟨rfl, ?_, ?_, ?_⟩
  · induction ds generalizing s with
    | nil => exact hlen
    | cons e es ih =>
        exact ih (record_change e s) (record_change_length_le e s hlen)
  · intro hcap
    unfold record_change
    have hgt : (d :: s.history_stack).length > MAX_HISTORY_SIZE := by
      simp only [List.length_cons]; omega
    have hne : s.history_stack ≠ [] := by
      intro hnil
      rw [hnil] at hcap
      simp [MAX_HISTORY_SIZE] at hcap
    simp only [hgt, if_pos]
    rw [List.dropLast_cons_of_ne_nil hne]
  · rfl

/-- Witness for `history_capacity_spec` at a concrete state. -/
theorem history_capacity_spec_witness :
    MAX_HISTORY_SIZE = 100 ∧
    (apply_changes [delta0] ⟨[], []⟩).history_stack.length ≤ MAX_HISTORY_SIZE ∧
    ((⟨[], []⟩ : HistoryState).history_stack.length = MAX_HISTORY_SIZE →
      record_change delta0 ⟨[], []⟩ =
        ⟨delta0 :: ([] : List ModelDelta).dropLast, []⟩) ∧
    (record_change delta0 ⟨[], []⟩).redo_stack = [] :=
  history_capacity_spec ⟨[], []⟩ (by simp [MAX_HISTORY_SIZE]) [delta0] delta0

/-- C5: with a non-empty history stack, `undo_request` pops the top delta,
pushes that same delta on the redo stack and returns it; the immediately
following `redo_request` returns the same delta and restores both stacks to
exactly the pre-undo state.  The last conjunct states the no-duplication
side of the spec's state machine: `undo_request` moves its delta between
the two stacks, so the combined multiset of deltas across both stacks is
preserved (nothing is copied or lost). -/
theorem undo_redo_roundtrip (s : HistoryState) (d : ModelDelta)
    (rest : List ModelDelta) (h : s.history_stack = d :: rest) :
    undo_request s = (Except.ok d, ⟨rest, d :: s.redo_stack⟩) ∧
    redo_request (undo_request s).2 = (Except.ok d, s) ∧
    ((undo_request s).2.history_stack ++ (undo_request s).2.redo_stack).Perm
      (s.history_stack ++ s.redo_stack) := by
  have hu : undo_request s = (Except.ok d, ⟨rest, d :: s.redo_stack⟩) := by
    unfold undo_request
    rw [h]
  refine ⟨hu, ?_, ?_⟩
  · rw [hu]
    unfold redo_request
    simp only
    have : s = ⟨s.history_stack, s.redo_stack⟩ := rfl
    rw [this, h]
  · rw [hu, h]
    exact List.perm_middle

/-- Witness for `undo_redo_roundtrip` at a concrete one-delta state. -/
theorem undo_redo_roundtrip_witness :
    undo_request ⟨[delta0], []⟩ = (Except.ok delta0, ⟨[], [delta0]⟩) ∧
    redo_request (undo_request ⟨[delta0], []⟩).2 =
      (Except.ok delta0, ⟨[delta0], []⟩) ∧
    ((undo_request ⟨[delta0], []⟩).2.history_stack ++
        (undo_request ⟨[delta0], []⟩).2.redo_stack).Perm
      ((⟨[delta0], []⟩ : HistoryState).history_stack ++
        (⟨[delta0], []⟩ : HistoryState).redo_stack) :=
  undo_redo_roundtrip ⟨[delta0], []⟩ delta0 [] rfl

/-- C6: `undo_request` on an empty history stack and `redo_request` on an
empty redo stack each return the distinct `EmptyHistoryException` condition
(with the source's message) and leave both stacks of the state unchanged. -/
theorem empty_history_errors (s t : HistoryState)
    (hs : s.history_stack = []) (ht : t.redo_stack = []) :
    undo_request s =
      (Except.error (HistoryError.emptyHistory "No history to undo."), s) ∧
    redo_request t =
      (Except.error (HistoryError.emptyHistory "No history to redo."), t) := by
  constructor
  · unfold undo_request
    rw [hs]
  · unfold redo_request
    rw [ht]

/-- Witness for `empty_history_errors` at the empty state. -/
theorem empty_history_errors_witness :
    undo_request ⟨[], []⟩ =
      (Except.error (HistoryError.emptyHistory "No history to undo."),
        (⟨[], []⟩ : HistoryState)) ∧
    redo_request ⟨[], []⟩ =
      (Except.error (HistoryError.emptyHistory "No history to redo."),
        (⟨[], []⟩ : HistoryState)) :=
  empty_history_errors ⟨[], []⟩ ⟨[], []⟩ rfl rfl

lemma pyRound_intCast (n : ℤ) : pyRound ((n : ℚ)) = n := by
  unfold pyRound
  rw [Int.floor_intCast]
  have h : ((n : ℚ)) - n = 0 := sub_self _
  rw [h]
  norm_num

lemma on_surface_iff (s : List VoxelRow) (v : VoxelRow) :
    on_surface s v = true ↔
      ∃ d ∈ neighbor_offsets,
        occupied s (v.ix + d.1, v.iy + d.2.1, v.iz + d.2.2) = false := by
  simp only [on_surface, Bool.or_eq_true, Bool.not_eq_true']
  simp only [neighbor_offsets, List.mem_cons, List.not_mem_nil, or_false]
  constructor
  · rintro (((((h | h) | h) | h) | h) | h)
    · exact ⟨(1, 0, 0), Or.inl rfl, by simpa using h⟩
    · exact ⟨(-1, 0, 0), Or.inr (Or.inl rfl), by simpa using h⟩
    · exact ⟨(0, 1, 0), Or.inr (Or.inr (Or.inl rfl)), by simpa using h⟩
    · exact ⟨(0, -1, 0), Or.inr (Or.inr (Or.inr (Or.inl rfl))), by simpa using h⟩
    · exact ⟨(0, 0, 1), Or.inr (Or.inr (Or.inr (Or.inr (Or.inl rfl)))),
        by simpa using h⟩
    · exact ⟨(0, 0, -1), Or.inr (Or.inr (Or.inr (Or.inr (Or.inr rfl)))),
        by simpa using h⟩
  · rintro ⟨d, (rfl | rfl | rfl | rfl | rfl | rfl), h⟩
    · exact Or.inl (Or.inl (Or.inl (Or.inl (Or.inl (by simpa using h)))))
    · exact Or.inl (Or.inl (Or.inl (Or.inl (Or.inr (by simpa using h)))))
    · exact Or.inl (Or.inl (Or.inl (Or.inr (by simpa using h))))
    · exact Or.inl (Or.inl (Or.inr (by simpa using h)))
    · exact Or.inl (Or.inr (by simpa using h))
    · exact Or.inr (by simpa using h)

/-- C1: for every store satisfying the primary-key invariant (no two rows
share `(ix,iy,iz)`, which is what makes the query's LEFT JOINs match at
most one row each) and every stored voxel `v`, `v` is selected by the
`FIND_SURFACE` query iff at least one of its six face-adjacent neighbor
keys (`±1` on exactly one axis) is absent from the store — so an isolated
voxel is returned and a fully surrounded one is not — and `find_surface`
returns the store unchanged (it only reads). -/
theorem find_surface_spec (s : List VoxelRow) (hkeys : (s.map voxelKey).Nodup)
    (v : VoxelRow) (hv : v ∈ s) :
    (v ∈ surface_rows s ↔
      ∃ d ∈ neighbor_offsets,
        occupied s (v.ix + d.1, v.iy + d.2.1, v.iz + d.2.2) = false) ∧
    (find_surface s).2 = s := by
  refine ⟨?_, rfl⟩
  rw [surface_rows, List.mem_filter, ← on_surface_iff s v]
  simp [hv]

/-- Witness for `find_surface_spec`: an isolated voxel is returned. -/
theorem find_surface_spec_witness : v000 ∈ surface_rows [v000] :=
  ((find_surface_spec [v000] (by decide) v000 (by decide)).1).mpr
    ⟨(1, 0, 0), by decide, by decide⟩

/-- C8 (code bug): the store holds the voxel `(0,0,0)` (with the default
properties), yet `get_properties` returns the one-element **list**
`[(1, 0, 0, 0)]` rather than the tuple its own annotation
`Tuple[int, float, float, float]` declares, and the caller
`get_full_voxels`, which indexes `rows[0] .. rows[3]` as if the tuple had
been returned, fails with `IndexError` (`none`) even though the voxel is
present. -/
theorem get_properties_shape_bug :
    occupied [v000] (0, 0, 0) = true ∧
    get_properties [v000] 0 0 0 = [(1, 0, 0, 0)] ∧
    get_full_voxels [v000] [(0, 0, 0)] = none := by
  refine ⟨by decide, by decide, rfl⟩

/-- C9 counterexample: with the stored grid `origin = (0,0,0)` and
`voxel_size = -1`, the pitch is non-positive yet `get_grid_conversion` does
not reject the configuration: it applies `round((p - o) / s)` with the
negative pitch and returns indices. -/
theorem grid_conversion_no_pitch_check :
    get_grid_conversion ⟨0, 0, 0, -1⟩ (2, 0, 0) = Except.ok (-2, 0, 0) := by
  unfold get_grid_conversion
  rw [if_neg (by norm_num)]
  congr 1
  show (pyRound (((2 : ℚ) - 0) / (-1)), pyRound (((0 : ℚ) - 0) / (-1)),
    pyRound (((0 : ℚ) - 0) / (-1))) = (-2, 0, 0)
  have h1 : ((2 : ℚ) - 0) / (-1) = ((-2 : ℤ) : ℚ) := by norm_num
  have h2 : ((0 : ℚ) - 0) / (-1) = ((0 : ℤ) : ℚ) := by norm_num
  rw [h1, h2, pyRound_intCast, pyRound_intCast]

/-- C9 as amended: `get_grid_conversion` itself performs no pitch
validation — for a negative pitch the conversion arithmetic is applied
as-is and indices are returned, and a zero pitch only fails with
`ZeroDivisionError` at the first division; the rejection of a non-positive
pitch happens upstream, in `voxelize` (voxel_service.py), before any store
exists. -/
theorem grid_conversion_amended (m : GridMeta) (p : ℚ × ℚ × ℚ) :
    (m.voxel_size < 0 →
      get_grid_conversion m p = Except.ok
        (pyRound ((p.1 - m.origin_x) / m.voxel_size),
         pyRound ((p.2.1 - m.origin_y) / m.voxel_size),
         pyRound ((p.2.2 - m.origin_z) / m.voxel_size))) ∧
    (m.voxel_size = 0 →
      get_grid_conversion m p = Except.error PyError.zeroDivision) ∧
    (m.voxel_size ≤ 0 →
      voxelize_size_check m.voxel_size =
        Except.error "voxel_size_mm must be > 0") := by
  refine ⟨?_, ?_, ?_⟩
  · intro h
    unfold get_grid_conversion
    rw [if_neg (ne_of_lt h)]
  · intro h
    unfold get_grid_conversion
    rw [if_pos h]
  · intro h
    unfold voxelize_size_check
    rw [if_pos h]

/-- Witness for `grid_conversion_amended` at pitch `-1`. -/
theorem grid_conversion_amended_witness :
    get_grid_conversion ⟨0, 0, 0, -1⟩ (2, 0, 0) = Except.ok
      (pyRound (((2 : ℚ) - 0) / (-1)), pyRound (((0 : ℚ) - 0) / (-1)),
       pyRound (((0 : ℚ) - 0) / (-1))) ∧
    voxelize_size_check (-1) = Except.error "voxel_size_mm must be > 0" :=
  ⟨(grid_conversion_amended ⟨0, 0, 0, -1⟩ (2, 0, 0)).1 (by norm_num),
   (grid_conversion_amended ⟨0, 0, 0, -1⟩ (2, 0, 0)).2.2 (by norm_num)⟩

lemma find?_filter_of_imp {α : Type} (s : List α) (p q : α → Bool)
    (h : ∀ w, p w = true → q w = true) :
    (s.filter q).find? p = s.find? p := by
  induction s with
  | nil => rfl
  | cons a t ih =>
      by_cases hq : q a = true
      · rw [List.filter_cons_of_pos hq]
        by_cases hp : p a = true
        · rw [List.find?_cons_of_pos _ hp, List.find?_cons_of_pos _ hp]
        · rw [List.find?_cons_of_neg _ hp, List.find?_cons_of_neg _ hp, ih]
      · rw [List.filter_cons_of_neg hq]
        have hp : ¬p a = true := fun hpa => hq (h a hpa)
        rw [List.find?_cons_of_neg _ hp, ih]

lemma lookup_insert_self (s : List VoxelRow) (v : VoxelRow) :
    lookupKey (insert_or_replace s v) (voxelKey v) = some v := by
  unfold lookupKey insert_or_replace
  rw [List.find?_append]
  have hleft :
      (s.filter fun w => decide (voxelKey w ≠ voxelKey v)).find?
        (fun w => decide (voxelKey w = voxelKey v)) = none := by
    rw [List.find?_eq_none]
    intro w hw
    rcases List.mem_filter.mp hw with ⟨_, hne⟩
    simp only [decide_eq_true_eq] at hne ⊢
    exact hne
  rw [hleft]
  simp

lemma lookup_insert_other (s : List VoxelRow) (v : VoxelRow)
    (k : Int × Int × Int) (hk : k ≠ voxelKey v) :
    lookupKey (insert_or_replace s v) k = lookupKey s k := by
  unfold lookupKey insert_or_replace
  rw [List.find?_append]
  rw [find?_filter_of_imp s _ _ ?imp]
  case imp =>
    intro w hw
    simp only [decide_eq_true_eq] at hw ⊢
    rw [hw]
    exact fun h => hk (h ▸ rfl)
  cases hfind : s.find? fun w => decide (voxelKey w = k) with
  | some w => rfl
  | none =>
      have hv : ¬(decide (voxelKey v = k) = true) := by
        simp only [decide_eq_true_eq]
        exact fun h => hk h.symm
      simp only [Option.or]
      rw [List.find?_eq_none]
      intro w hw
      rcases List.mem_singleton.mp hw with rfl
      exact hv

lemma lookup_upsert_many (batch : List CoordRow) (s : List VoxelRow)
    (k : Int × Int × Int) :
    lookupKey (upsert_many s batch) k =
      match batchLast batch k with
      | some c => some (defaultRow c)
      | none => lookupKey s k := by
  induction batch generalizing s with
  | nil => rfl
  | cons c rest ih =>
      show lookupKey (upsert_many (insert_or_replace s (defaultRow c)) rest) k = _
      rw [ih]
      cases hbl : batchLast rest k with
      | some cw => simp only [batchLast, hbl]
      | none =>
          simp only [batchLast, hbl]
          by_cases hk : coordKey c = k
          · rw [if_pos hk]
            have hkey : voxelKey (defaultRow c) = k := hk
            rw [← hkey, lookup_insert_self]
          · rw [if_neg hk]
            exact lookup_insert_other s (defaultRow c) k (fun h => hk h.symm)

lemma upsert_fresh (batch : List CoordRow) (s : List VoxelRow)
    (hdisj : ∀ v ∈ s, ∀ c ∈ batch, voxelKey v ≠ coordKey c)
    (hnd : (batch.map coordKey).Nodup) :
    upsert_many s batch = s ++ batch.map defaultRow := by
  induction batch generalizing s with
  | nil => simp [upsert_many]
  | cons c rest ih =>
      have hnd' : coordKey c ∉ rest.map coordKey ∧ (rest.map coordKey).Nodup := by
        rw [List.map_cons, List.nodup_cons] at hnd
        exact hnd
      rcases hnd' with ⟨hcnot, hndr⟩
      have hfil :
          (s.filter fun w => decide (voxelKey w ≠ voxelKey (defaultRow c))) = s := by
        rw [List.filter_eq_self]
        intro v hv
        simp only [decide_eq_true_eq]
        exact hdisj v hv c (List.mem_cons_self c rest)
      show upsert_many (insert_or_replace s (defaultRow c)) rest = _
      rw [insert_or_replace, hfil, ih (s ++ [defaultRow c]) ?disj hndr]
      case disj =>
        intro v hv c' hc'
        rcases List.mem_append.mp hv with hvs | hveq
        · exact hdisj v hvs c' (List.mem_cons_of_mem c hc')
        · have hveq' : v = defaultRow c := by simpa using hveq
          subst hveq'
          show coordKey c ≠ coordKey c'
          intro hkk
          apply hcnot
          rw [hkk]
          exact List.mem_map_of_mem coordKey hc'
      simp

lemma batchLast_none_iff (batch : List CoordRow) (k : Int × Int × Int) :
    batchLast batch k = none ↔ ∀ c ∈ batch, coordKey c ≠ k := by
  induction batch with
  | nil => simp [batchLast]
  | cons c rest ih =>
      simp only [batchLast, List.mem_cons]
      cases hbl : batchLast rest k with
      | some cw =>
          simp only []
          constructor
          · intro h
            exact absurd h (by simp)
          · intro h
            have hnone : batchLast rest k = none :=
              ih.mpr (fun c' hc' => h c' (Or.inr hc'))
            rw [hnone] at hbl
            exact Option.noConfusion hbl
      | none =>
          simp only []
          constructor
          · intro h
            intro c' hc'
            rcases hc' with rfl | hc'
            · intro hkk
              rw [if_pos hkk] at h
              exact Option.noConfusion h
            · exact (ih.mp hbl) c' hc'
          · intro h
            rw [if_neg (h c (Or.inl rfl))]

lemma batchLast_some_iff (batch : List CoordRow) :
    ∀ (k : Int × Int × Int) (c : CoordRow), (batch.map coordKey).Nodup →
      (batchLast batch k = some c ↔ c ∈ batch ∧ coordKey c = k) := by
  induction batch with
  | nil =>
      intro k c _
      simp [batchLast]
  | cons cq rest ih =>
      intro k c hnd
      have hnd' : coordKey cq ∉ rest.map coordKey ∧ (rest.map coordKey).Nodup := by
        rw [List.map_cons, List.nodup_cons] at hnd
        exact hnd
      rcases hnd' with ⟨hcnot, hndr⟩
      have ihr := fun c' => ih k c' hndr
      simp only [batchLast, List.mem_cons]
      cases hbl : batchLast rest k with
      | some cw =>
          simp only []
          constructor
          · intro h
            rcases Option.some.inj h with rfl
            rcases (ihr cw).mp hbl with ⟨hmem, hkey⟩
            exact ⟨Or.inr hmem, hkey⟩
          · rintro ⟨rfl | hmem, hkey⟩
            · exfalso
              rcases (ihr cw).mp hbl with ⟨hmemw, hkeyw⟩
              apply hcnot
              have hkk : coordKey c = coordKey cw := by
                rw [hkey, ← hkeyw]
              rw [hkk]
              exact List.mem_map_of_mem coordKey hmemw
            · rw [(ihr c).mpr ⟨hmem, hkey⟩] at hbl
              rw [Option.some.inj hbl]
      | none =>
          simp only []
          by_cases hck : coordKey cq = k
          · rw [if_pos hck]
            constructor
            · intro h
              rcases Option.some.inj h with rfl
              exact ⟨Or.inl rfl, hck⟩
            · rintro ⟨rfl | hmem, hkey⟩
              · rfl
              · exact absurd hkey ((batchLast_none_iff rest k).mp hbl c hmem)
          · rw [if_neg hck]
            constructor
            · intro h
              exact Option.noConfusion h
            · rintro ⟨rfl | hmem, hkey⟩
              · exact absurd hkey hck
              · exact absurd hkey ((batchLast_none_iff rest k).mp hbl c hmem)

/-- C7 counterexample: applying `upsert_many` with the batch `[c000]`
(key `(0,0,0)`) to a store already holding the voxel `(9,9,9)` and reading
the store back does **not** yield exactly the batch: the pre-existing row
`(9,9,9)` is still present, so the read-back key set is not even a
permutation of the batch keys. -/
theorem upsert_readback_counterexample :
    v999 ∈ upsert_many [v999] [c000] ∧
    ¬((upsert_many [v999] [c000]).map voxelKey).Perm ([c000].map coordKey) := by
  decide

/-- C7 as amended: applying `upsert_many` to an **empty** store with a batch
whose keys are pairwise distinct, then reading back, yields exactly the
batch (each parameter row stored with the schema defaults), and is
order-independent: a permuted batch produces the same keyed store state.
Re-applying the same batch to any store leaves the keyed store state
unchanged (idempotence).  Store states are compared as key-to-row maps
(`lookupKey`), the observable state of a SQL table. -/
theorem upsert_many_amended (batch batch2 : List CoordRow) (s : List VoxelRow)
    (hnd : (batch.map coordKey).Nodup) (hperm : batch2.Perm batch)
    (k : Int × Int × Int) :
    upsert_many [] batch = batch.map defaultRow ∧
    lookupKey (upsert_many [] batch2) k = lookupKey (upsert_many [] batch) k ∧
    lookupKey (upsert_many (upsert_many s batch) batch) k =
      lookupKey (upsert_many s batch) k := by
  refine ⟨?_, ?_, ?_⟩
  · exact upsert_fresh batch [] (by simp) hnd
  · have hnd2 : (batch2.map coordKey).Nodup :=
      ((hperm.map coordKey).symm).nodup hnd
    rw [lookup_upsert_many, lookup_upsert_many]
    have heq : batchLast batch2 k = batchLast batch k := by
      cases hb : batchLast batch k with
      | some c =>
          rcases (batchLast_some_iff batch k c hnd).mp hb with ⟨hmem, hkey⟩
          exact (batchLast_some_iff batch2 k c hnd2).mpr
            ⟨hperm.mem_iff.mpr hmem, hkey⟩
      | none =>
          rw [batchLast_none_iff] at hb ⊢
          intro c hc
          exact hb c (hperm.mem_iff.mp hc)
    rw [heq]
  · rw [lookup_upsert_many batch (upsert_many s batch) k,
      lookup_upsert_many batch s k]
    cases hb : batchLast batch k with
    | some c => rfl
    | none => rfl

/-- Witness for `upsert_many_amended` at a concrete batch and store. -/
theorem upsert_many_amended_witness :
    upsert_many [] [c000] = [c000].map defaultRow ∧
    lookupKey (upsert_many [] [c000]) (0, 0, 0) =
      lookupKey (upsert_many [] [c000]) (0, 0, 0) ∧
    lookupKey (upsert_many (upsert_many [v999] [c000]) [c000]) (0, 0, 0) =
      lookupKey (upsert_many [v999] [c000]) (0, 0, 0) :=
  upsert_many_amended [c000] [c000] [v999] (by decide) (List.Perm.refl _) (0, 0, 0)

/-- C10 counterexample: the store holds an edited voxel at `(0,0,0)`
(material 5, magnetization `(2,3,4)`), yet `add_voxel` does not replace the
row at all — it raises `NameError` (its INSERT parameters reference the
unbound names `x`, `y`, `z`) and produces no store. -/
theorem add_voxel_counterexample :
    add_voxel [edited000] 0 0 0 = Except.error PyError.nameError ∧
    (add_voxel [edited000] 0 0 0).isOk = false :=
  ⟨rfl, rfl⟩

/-- C10 as amended: `upsert_many` with a row for an already-stored key
replaces the whole row, so the stored material becomes the schema default
`1` and the magnetization triple becomes `(0, 0, 0)` — prior property
edits on that voxel are lost; `add_voxel`, by contrast, never replaces
anything: as written it raises `NameError` (unbound `x`, `y`, `z`) and
performs no write. -/
theorem upsert_resets_properties (s : List VoxelRow) (v : VoxelRow)
    (hv : v ∈ s) (c : CoordRow) (hk : coordKey c = voxelKey v) :
    lookupKey (upsert_many s [c]) (voxelKey v) = some (defaultRow c) ∧
    (defaultRow c).material = 1 ∧ (defaultRow c).magnet_magnitude = 0 ∧
    (defaultRow c).magnet_polar = 0 ∧ (defaultRow c).magnet_azimuth = 0 ∧
    add_voxel s v.ix v.iy v.iz = Except.error PyError.nameError := by
  refine ⟨?_, rfl, rfl, rfl, rfl, rfl⟩
  show lookupKey (insert_or_replace s (defaultRow c)) (voxelKey v) =
    some (defaultRow c)
  have hkey : voxelKey (defaultRow c) = voxelKey v := hk
  rw [← hkey]
  exact lookup_insert_self s (defaultRow c)

/-- Witness for `upsert_resets_properties` on the edited origin voxel. -/
theorem upsert_resets_properties_witness :
    lookupKey (upsert_many [edited000] [c000]) (voxelKey edited000) =
      some (defaultRow c000) ∧
    (defaultRow c000).material = 1 ∧ (defaultRow c000).magnet_magnitude = 0 ∧
    (defaultRow c000).magnet_polar = 0 ∧ (defaultRow c000).magnet_azimuth = 0 ∧
    add_voxel [edited000] edited000.ix edited000.iy edited000.iz =
      Except.error PyError.nameError :=
  upsert_resets_properties [edited000] edited000 (by decide) c000 (by decide)

/-- C2 counterexample: for a populated store with occupied x-span `[0, 5]`
and `L = 4`, the code computes `x_lo = (0 // 2) * 2 = 0` and
`x_hi = ((5 // 2) + 1) * 2 = 6`, giving cube x-ranges `[0,4)` and `[4,8)` —
not the `[-2,2)` and `[2,6)` of the claim — and the voxel at `ix = 2` falls
in the **first** cube (`0 ≤ 2 < 4`), not the second. -/
theorem partition_example_counterexample :
    get_partitions store_span05 4 =
      some [(⟨0, 4, 0, 4, 0, 4⟩, [v000, v200]),
        (⟨4, 8, 0, 4, 0, 4⟩, [v500])] ∧
    (get_partitions store_span05 4).map
        (fun l => l.map fun p => (p.1.xmin, p.1.xmax)) ≠
      some [(-2, 2), (2, 6)] ∧
    inCube ⟨0, 4, 0, 4, 0, 4⟩ v200 = true ∧
    inCube ⟨4, 8, 0, 4, 0, 4⟩ v200 = false := by
  decide

/-- C2 as amended: with `half = L/2 > 0`, `get_partitions` expands the
occupied span per axis to `[lo, hi)` where `lo` is the **largest multiple
of `L/2` that is ≤ min** (Python floor division) and `hi` is the smallest
multiple of `L/2` **strictly greater** than max, then tiles cubes of side
`L` from `lo`; each partition keeps exactly the voxels inside its half-open
cube.  For the spec's example (span `[0,5]`, `L = 4`) the x-ranges are
`[0,4)` and `[4,8)`, and a voxel at `ix = 2` belongs to the first cube. -/
theorem partition_grid_amended (mn mx half : Int) (hhalf : 0 < half)
    (s : List VoxelRow) (c : CubeRange) (v : VoxelRow) :
    (half ∣ (partition_bounds mn mx half).1 ∧
     (partition_bounds mn mx half).1 ≤ mn ∧
     mn < (partition_bounds mn mx half).1 + half ∧
     half ∣ (partition_bounds mn mx half).2 ∧
     mx < (partition_bounds mn mx half).2 ∧
     (partition_bounds mn mx half).2 ≤ mx + half) ∧
    (v ∈ remove_outside_range s c ↔ v ∈ s ∧ inCube c v = true) ∧
    get_partitions store_span05 4 =
      some [(⟨0, 4, 0, 4, 0, 4⟩, [v000, v200]),
        (⟨4, 8, 0, 4, 0, 4⟩, [v500])] ∧
    inCube ⟨0, 4, 0, 4, 0, 4⟩ v200 = true := by
  have hfd : ∀ a : Int, a.fdiv half = a / half :=
    fun a => Int.fdiv_eq_ediv a (le_of_lt hhalf)
  have hne : half ≠ 0 := ne_of_gt hhalf
  refine ⟨⟨?_, ?_, ?_, ?_, ?_, ?_⟩, List.mem_filter, by decide, by decide⟩
  · exact dvd_mul_left half (mn.fdiv half)
  · show (mn.fdiv half) * half ≤ mn
    rw [hfd]
    exact Int.ediv_mul_le mn hne
  · show mn < (mn.fdiv half) * half + half
    rw [hfd]
    have h := Int.lt_ediv_add_one_mul_self mn hhalf
    have he : (mn / half + 1) * half = (mn / half) * half + half := by ring
    rw [he] at h
    exact h
  · exact dvd_mul_left half (mx.fdiv half + 1)
  · show mx < (mx.fdiv half + 1) * half
    rw [hfd]
    exact Int.lt_ediv_add_one_mul_self mx hhalf
  · show (mx.fdiv half + 1) * half ≤ mx + half
    rw [hfd]
    have h := Int.ediv_mul_le mx hne
    have he : (mx / half + 1) * half = (mx / half) * half + half := by ring
    rw [he]
    exact add_le_add_right h half

/-- Witness for `partition_grid_amended` at span `[0,5]`, `L = 4`. -/
theorem partition_grid_amended_witness :
    ((2 : Int) ∣ (partition_bounds 0 5 2).1 ∧
     (partition_bounds 0 5 2).1 ≤ 0 ∧
     (0 : Int) < (partition_bounds 0 5 2).1 + 2 ∧
     (2 : Int) ∣ (partition_bounds 0 5 2).2 ∧
     (5 : Int) < (partition_bounds 0 5 2).2 ∧
     (partition_bounds 0 5 2).2 ≤ 5 + 2) ∧
    (v200 ∈ remove_outside_range store_span05 ⟨0, 4, 0, 4, 0, 4⟩ ↔
      v200 ∈ store_span05 ∧ inCube ⟨0, 4, 0, 4, 0, 4⟩ v200 = true) ∧
    get_partitions store_span05 4 =
      some [(⟨0, 4, 0, 4, 0, 4⟩, [v000, v200]),
        (⟨4, 8, 0, 4, 0, 4⟩, [v500])] ∧
    inCube ⟨0, 4, 0, 4, 0, 4⟩ v200 = true :=
  partition_grid_amended 0 5 2 (by decide) store_span05 ⟨0, 4, 0, 4, 0, 4⟩ v200

lemma foldl_min_map_sub (l : List Int) (c : Int) :
    ∀ a, (l.map fun x => x - c).foldl min (a - c) = l.foldl min a - c := by
  induction l with
  | nil =>
      intro a
      rfl
  | cons x t ih =>
      intro a
      simp only [List.map_cons, List.foldl_cons]
      have hmin : min (a - c) (x - c) = min a x - c := by omega
      rw [hmin, ih (min a x)]

lemma foldl_max_map_sub (l : List Int) (c : Int) :
    ∀ a, (l.map fun x => x - c).foldl max (a - c) = l.foldl max a - c := by
  induction l with
  | nil =>
      intro a
      rfl
  | cons x t ih =>
      intro a
      simp only [List.map_cons, List.foldl_cons]
      have hmax : max (a - c) (x - c) = max a x - c := by omega
      rw [hmax, ih (max a x)]

lemma min?_map_sub (l : List Int) (c a : Int) (h : l.min? = some a) :
    (l.map fun x => x - c).min? = some (a - c) := by
  cases l with
  | nil => exact Option.noConfusion h
  | cons x t =>
      have ha : t.foldl min x = a := Option.some.inj h
      show some ((t.map fun y => y - c).foldl min (x - c)) = some (a - c)
      rw [foldl_min_map_sub t c x, ha]

lemma max?_map_sub (l : List Int) (c a : Int) (h : l.max? = some a) :
    (l.map fun x => x - c).max? = some (a - c) := by
  cases l with
  | nil => exact Option.noConfusion h
  | cons x t =>
      have ha : t.foldl max x = a := Option.some.inj h
      show some ((t.map fun y => y - c).foldl max (x - c)) = some (a - c)
      rw [foldl_max_map_sub t c x, ha]

/-- C3 (settled against the spec-modelled `centre_structure`, which the
population workflow invokes but src/ never defines): given the occupied
span per axis, `centre_structure` shifts every stored voxel's integer
coordinates by the integer-rounded span midpoint `(min+max)/2` (floor); the
shifted x-span `[mnx', mxx']` is centred at the origin up to rounding
(`0 ≤ mnx' + mxx' ≤ 1`); and in `create_voxel_db` the centring runs exactly
once, after the `upsert_many` bulk population and before `get_partitions`. -/
theorem centre_structure_spec
    (s : List VoxelRow) (mnx mxx mny mxy mnz mxz : Int)
    (h1 : (s.map VoxelRow.ix).min? = some mnx)
    (h2 : (s.map VoxelRow.ix).max? = some mxx)
    (h3 : (s.map VoxelRow.iy).min? = some mny)
    (h4 : (s.map VoxelRow.iy).max? = some mxy)
    (h5 : (s.map VoxelRow.iz).min? = some mnz)
    (h6 : (s.map VoxelRow.iz).max? = some mxz)
    (m : GridMeta) (coords : List (ℚ × ℚ × ℚ)) (s0 : List VoxelRow)
    (rows : List CoordRow)
    (hconv : coords.mapM
        (fun p => (get_grid_conversion m p).map (toCoordRow p)) =
      Except.ok rows) :
    centre_structure s = s.map (fun v =>
      { v with
        ix := v.ix - (mnx + mxx).fdiv 2,
        iy := v.iy - (mny + mxy).fdiv 2,
        iz := v.iz - (mnz + mxz).fdiv 2 }) ∧
    ((centre_structure s).map VoxelRow.ix).min? =
      some (mnx - (mnx + mxx).fdiv 2) ∧
    ((centre_structure s).map VoxelRow.ix).max? =
      some (mxx - (mnx + mxx).fdiv 2) ∧
    0 ≤ (mnx - (mnx + mxx).fdiv 2) + (mxx - (mnx + mxx).fdiv 2) ∧
    (mnx - (mnx + mxx).fdiv 2) + (mxx - (mnx + mxx).fdiv 2) ≤ 1 ∧
    create_voxel_db m coords s0 =
      Except.ok (get_partitions (centre_structure (upsert_many s0 rows)) 11,
        centre_structure (upsert_many s0 rows)) := by
  have hcs : centre_structure s = s.map (fun v =>
      { v with
        ix := v.ix - (mnx + mxx).fdiv 2,
        iy := v.iy - (mny + mxy).fdiv 2,
        iz := v.iz - (mnz + mxz).fdiv 2 }) := by
    unfold centre_structure
    rw [h1, h2, h3, h4, h5, h6]
  have hmap : (centre_structure s).map VoxelRow.ix =
      (s.map VoxelRow.ix).map (fun x => x - (mnx + mxx).fdiv 2) := by
    rw [hcs, List.map_map, List.map_map]
    rfl
  have hfd : (mnx + mxx).fdiv 2 = (mnx + mxx) / 2 :=
    Int.fdiv_eq_ediv (mnx + mxx) (by norm_num)
  refine ⟨hcs, ?_, ?_, ?_, ?_, ?_⟩
  · rw [hmap]
    exact min?_map_sub (s.map VoxelRow.ix) ((mnx + mxx).fdiv 2) mnx h1
  · rw [hmap]
    exact max?_map_sub (s.map VoxelRow.ix) ((mnx + mxx).fdiv 2) mxx h2
  · rw [hfd]
    omega
  · rw [hfd]
    omega
  · unfold create_voxel_db
    rw [hconv]
    rfl

/-- Witness for `centre_structure_spec` on the span-`[0,5]` store with an
empty population request. -/
theorem centre_structure_spec_witness :
    centre_structure store_span05 = store_span05.map (fun v =>
      { v with
        ix := v.ix - ((0 : Int) + 5).fdiv 2,
        iy := v.iy - ((0 : Int) + 0).fdiv 2,
        iz := v.iz - ((0 : Int) + 0).fdiv 2 }) ∧
    ((centre_structure store_span05).map VoxelRow.ix).min? =
      some (0 - ((0 : Int) + 5).fdiv 2) ∧
    ((centre_structure store_span05).map VoxelRow.ix).max? =
      some (5 - ((0 : Int) + 5).fdiv 2) ∧
    0 ≤ (0 - ((0 : Int) + 5).fdiv 2) + (5 - ((0 : Int) + 5).fdiv 2) ∧
    (0 - ((0 : Int) + 5).fdiv 2) + (5 - ((0 : Int) + 5).fdiv 2) ≤ 1 ∧
    create_voxel_db ⟨0, 0, 0, 1⟩ [] [] =
      Except.ok (get_partitions (centre_structure (upsert_many [] [])) 11,
        centre_structure (upsert_many [] [])) :=
  centre_structure_spec store_span05 0 5 0 0 0 0 (by decide) (by decide)
    (by decide) (by decide) (by decide) (by decide) ⟨0, 0, 0, 1⟩ [] [] [] rfl

end VoxelEngine
